import Mathlib

/-!
Verification of the middleware chain of `Django-Middleware-0x03/chats/middleware.py`:
the sliding-window rate limiter (`OffensiveLanguageMiddleware`), the time-of-day
gate (`RestrictAccessByTimeMiddleware`), and the role gate
(`RolepermissionMiddleware`).

Modelling choices:
* Timestamps (`time.time()`) are modelled as integer seconds `ℤ`, hours as naturals.
* The per-IP map `defaultdict(list)` is modelled as a total function
  `String → Window` whose default value is `[]`.
* Each middleware's `__call__` is a pure function of the current time, the
  downstream handler `get_response`, the mutable state (when any) and the
  request; it returns the new state and the response.  A denial is the
  `Response.forbidden` constructor carrying the reason string; since every
  function is total, denials are ordinary return values, never exceptions.
-/

namespace Middleware

/-- A response: either a 403-equivalent denial carrying a human-readable
reason string (`HttpResponseForbidden(...)` in the source) or the response
produced by the downstream handler. -/
inductive Response where
  | forbidden (reason : String)
  | ok (body : String)
deriving DecidableEq

/-- The attributes of `request.user` read by the middleware.  `groups` and
`role` are `Option`s because the source guards them with `hasattr`. -/
structure User where
  is_authenticated : Bool
  is_superuser : Bool
  is_staff : Bool
  groups : Option (List String)
  role : Option String

/-- The parts of a Django request the three middlewares read.  `clientId` is
the client identity `_get_client_ip` extracts (first `X-Forwarded-For` entry,
else `REMOTE_ADDR`). -/
structure Request where
  method : String
  path : String
  clientId : String
  user : User

/-- A client's window: the list `ip_message_counts[ip]` of
`(timestamp, count)` pairs (every append in the source uses count `1`). -/
abbrev Window := List (ℤ × ℕ)

/-- The whole `ip_message_counts` map, with `defaultdict`'s default `[]`. -/
abbrev WindowMap := String → Window

/-- Assignment `ip_message_counts[ip] = w`. -/
def setWindow (st : WindowMap) (ip : String) (w : Window) : WindowMap :=
  fun k => if k = ip then w else st k

/-- `OffensiveLanguageMiddleware._clean_expired_entries`: keep exactly the
entries whose timestamp satisfies `now - timestamp < time_window`. -/
def clean_expired_entries (time_window now : ℤ) (w : Window) : Window :=
  w.filter (fun e => decide (now - e.1 < time_window))

/-- `sum(count for _, count in ip_message_counts[ip])`. -/
def total_messages (w : Window) : ℕ :=
  (w.map Prod.snd).sum

/-- `OffensiveLanguageMiddleware._is_rate_limited`: prune the window, then
compare the summed count with `max_messages`.  The source mutates
`ip_message_counts[ip]` to the pruned list, so the pruned window is returned
alongside the boolean. -/
def is_rate_limited (time_window : ℤ) (max_messages : ℕ) (now : ℤ)
    (w : Window) : Window × Bool :=
  let w' := clean_expired_entries time_window now w
  (w', decide (max_messages ≤ total_messages w'))

/-- The URL fragments of `_is_chat_post_request`. -/
def chat_url_fragments : List String :=
  ["/chats/", "/messages/", "/send_message/", "/api/messages/"]

/-- `OffensiveLanguageMiddleware._is_chat_post_request`: a POST whose path
contains (substring test, `path in request.path`) one of the chat fragments. -/
def is_chat_post_request (method path : String) : Bool :=
  method == "POST" &&
    chat_url_fragments.any (fun frag => decide (frag.data <:+: path.data))

/-- The reason string of the limiter's 403 response. -/
def rate_limit_reason : String :=
  "You\x27ve sent too many messages. Please wait a moment before sending more."

/-- `OffensiveLanguageMiddleware.__call__` at time `now`: if the request is a
matching chat POST, run the rate-limit check on that client's window (which
writes back the pruned window); on a limited client return the 403 without
calling `get_response`, otherwise append `(now, 1)` and fall through to the
handler. -/
def offensiveCall (time_window : ℤ) (max_messages : ℕ) (now : ℤ)
    (get_response : Request → Response) (st : WindowMap) (req : Request) :
    WindowMap × Response :=
  if is_chat_post_request req.method req.path then
    let ip := req.clientId
    let checked := is_rate_limited time_window max_messages now (st ip)
    if checked.2 then
      (setWindow st ip checked.1, Response.forbidden rate_limit_reason)
    else
      (setWindow st ip (checked.1 ++ [(now, 1)]), get_response req)
  else
    (st, get_response req)

/-- `allowed_start = 21  # 9PM` in `RestrictAccessByTimeMiddleware`. -/
def allowed_start : ℕ := 21

/-- `allowed_end = 18    # 6PM` in `RestrictAccessByTimeMiddleware`. -/
def allowed_end : ℕ := 18

/-- The deny condition of `RestrictAccessByTimeMiddleware.__call__`:
`current_hour < allowed_start and current_hour > allowed_end`. -/
def time_gate_denies (hour : ℕ) : Bool :=
  decide (hour < allowed_start) && decide (hour > allowed_end)

/-- The reason string of the time gate's 403 response. -/
def time_restriction_reason : String :=
  "Access to the messaging app is restricted between 6PM and 9PM. Please try again during allowed hours."

/-- `RestrictAccessByTimeMiddleware.__call__`, with the local hour passed in
for `timezone.localtime(timezone.now()).hour`. -/
def restrictAccessCall (hour : ℕ) (get_response : Request → Response)
    (req : Request) : Response :=
  if time_gate_denies hour then
    Response.forbidden time_restriction_reason
  else
    get_response req

/-- `RolepermissionMiddleware.protected_paths`. -/
def protected_paths : List String :=
  ["/admin/", "/dashboard/", "/manage/", "/chats/delete/", "/chats/moderate/",
   "/users/manage/", "/api/admin/", "/reports/"]

/-- `RolepermissionMiddleware._has_admin_permissions`, step for step:
unauthenticated users fail; superuser, then staff, short-circuit to success;
then group membership; finally the optional `role` attribute, whose absence
falls through to `False` rather than raising. -/
def has_admin_permissions (user : User) : Bool :=
  if !user.is_authenticated then
    false
  else if user.is_superuser then
    true
  else if user.is_staff then
    true
  else if (match user.groups with
           | some gs => gs.contains "moderator" || gs.contains "admin"
           | none => false) then
    true
  else
    match user.role with
    | some r => ["admin", "moderator"].contains r
    | none => false

/-- The reason string of the role gate's 403 response. -/
def role_denied_reason : String :=
  "Access denied: You must be an admin or moderator to access this resource."

/-- `RolepermissionMiddleware.__call__`: on a path starting with a protected
path prefix, require `_has_admin_permissions`; otherwise pass through. -/
def rolepermissionCall (get_response : Request → Response) (req : Request) :
    Response :=
  if protected_paths.any (fun p => req.path.startsWith p) then
    if !has_admin_permissions req.user then
      Response.forbidden role_denied_reason
    else
      get_response req
  else
    get_response req

/-- The limiter's admission step on a single client's window (the matching
branch of `offensiveCall` restricted to the window it touches): the pruned
window plus the appended entry on Allow (`true`), the bare pruned window on
Deny (`false`). -/
def admitOne (time_window : ℤ) (max_messages : ℕ) (now : ℤ) (w : Window) :
    Window × Bool :=
  let checked := is_rate_limited time_window max_messages now w
  if checked.2 then (checked.1, false) else (checked.1 ++ [(now, 1)], true)

/-- Sequential (serialized) processing of matching requests from one client
at the given times: the final window and the per-request decisions. -/
def admitAll (time_window : ℤ) (max_messages : ℕ) (ts : List ℤ)
    (w : Window) : Window × List Bool :=
  match ts with
  | [] => (w, [])
  | t :: rest =>
      let step := admitOne time_window max_messages t w
      let tail := admitAll time_window max_messages rest step.1
      (tail.1, step.2 :: tail.2)

/-! ### Helper lemmas -/

/-- The prune's keep-condition `now - t < time_window` keeps exactly the
entries NOT satisfying the expiry condition `now - t ≥ time_window`. -/
lemma clean_expired_eq_filter_not_expired (time_window now : ℤ) (w : Window) :
    clean_expired_entries time_window now w =
      w.filter (fun e => !decide (time_window ≤ now - e.1)) := by
  unfold clean_expired_entries
  refine List.filter_congr ?_
  intro e _
  rcases lt_or_le (now - e.1) time_window with h | h
  · simp [h, not_le.mpr h]
  · simp [h, not_lt.mpr h]

/-- `offensiveCall` on a matching request acts on the client's window exactly
as the single-window admission step `admitOne`, and answers 403 iff that step
denies. -/
lemma offensiveCall_matching_eq_admitOne (time_window : ℤ) (max_messages : ℕ)
    (now : ℤ) (get_response : Request → Response) (st : WindowMap)
    (req : Request) (hmatch : is_chat_post_request req.method req.path = true) :
    offensiveCall time_window max_messages now get_response st req =
      (setWindow st req.clientId
         (admitOne time_window max_messages now (st req.clientId)).1,
       if (admitOne time_window max_messages now (st req.clientId)).2 then
         get_response req
       else Response.forbidden rate_limit_reason) := by
  simp only [offensiveCall, admitOne, is_rate_limited, hmatch, if_true]
  by_cases h :
      max_messages ≤
        total_messages (clean_expired_entries time_window now (st req.clientId))
  · simp [h]
  · simp [h]

/-- Each stored count is `1`, so the summed count is the length. -/
lemma total_messages_eq_length (w : Window) (h : ∀ e ∈ w, e.2 = 1) :
    total_messages w = w.length := by
  induction w with
  | nil => rfl
  | cons e rest ih =>
      have ihr := ih (fun x hx => h x (by simp [hx]))
      simp only [total_messages, List.map_cons, List.sum_cons,
        List.length_cons] at ihr ⊢
      rw [h e (by simp)]
      omega

/-- The window the limiter builds out of raw timestamps sums to their number. -/
lemma total_messages_map_pairs (ts : List ℤ) :
    total_messages (ts.map (fun t => (t, 1))) = ts.length := by
  simp [total_messages, List.map_map, Function.comp_def]

/-- Summed counts only shrink along sublists. -/
lemma total_messages_le_of_sublist {w₁ w₂ : Window}
    (h : List.Sublist w₁ w₂) : total_messages w₁ ≤ total_messages w₂ :=
  (h.map Prod.snd).sum_le_sum (by simp)

/-- A window all of whose entries are still fresh survives the prune whole. -/
lemma clean_expired_eq_self (time_window now : ℤ) (w : Window)
    (h : ∀ e ∈ w, now - e.1 < time_window) :
    clean_expired_entries time_window now w = w :=
  List.filter_eq_self.mpr (fun e he => decide_eq_true (h e he))

/-- `admitOne` when the pruned count is below the limit. -/
lemma admit_allow (time_window : ℤ) (max_messages : ℕ) (now : ℤ) (w : Window)
    (h : total_messages (clean_expired_entries time_window now w) <
      max_messages) :
    admitOne time_window max_messages now w =
      (clean_expired_entries time_window now w ++ [(now, 1)], true) := by
  simp [admitOne, is_rate_limited, not_le.mpr h]

/-- `admitOne` when the pruned count has reached the limit. -/
lemma admit_deny (time_window : ℤ) (max_messages : ℕ) (now : ℤ) (w : Window)
    (h : max_messages ≤
      total_messages (clean_expired_entries time_window now w)) :
    admitOne time_window max_messages now w =
      (clean_expired_entries time_window now w, false) := by
  simp [admitOne, is_rate_limited, h]

/-- Whatever the admissions and prunes do, the final window is a sublist of
the starting window followed by one `(t, 1)` entry per processed time. -/
lemma admitAll_window_sublist (time_window : ℤ) (max_messages : ℕ) :
    ∀ (ts : List ℤ) (w : Window),
      List.Sublist (admitAll time_window max_messages ts w).1
        (w ++ ts.map (fun t => (t, 1))) := by
  intro ts
  induction ts with
  | nil => intro w; simp [admitAll]
  | cons t rest ih =>
      intro w
      have hstep : List.Sublist (admitOne time_window max_messages t w).1
          (w ++ [(t, 1)]) := by
        by_cases h : max_messages ≤
            total_messages (clean_expired_entries time_window t w)
        · rw [admit_deny _ _ _ _ h]
          exact (List.filter_sublist _).trans (by simp)
        · rw [admit_allow _ _ _ _ (not_le.mp h)]
          exact (List.filter_sublist _).append (List.Sublist.refl _)
      have h2 := (ih ((admitOne time_window max_messages t w).1)).trans
        (hstep.append (List.Sublist.refl (rest.map fun t => (t, 1))))
      simpa [admitAll, List.append_assoc] using h2

/-- If every time (stored and incoming) lies in a span shorter than the
window and there is room for all of them, every request is admitted and the
window accumulates them all. -/
lemma admitAll_all_admitted (time_window : ℤ) (max_messages : ℕ) (lo hi : ℤ)
    (hspan : hi - lo < time_window) :
    ∀ (ts : List ℤ) (w : Window),
      (∀ e ∈ w, e.2 = 1 ∧ lo ≤ e.1 ∧ e.1 ≤ hi) →
      (∀ t ∈ ts, lo ≤ t ∧ t ≤ hi) →
      w.length + ts.length ≤ max_messages →
      admitAll time_window max_messages ts w =
        (w ++ ts.map (fun t => (t, 1)),
         List.replicate ts.length true) := by
  intro ts
  induction ts with
  | nil => intro w _ _ _; simp [admitAll]
  | cons t rest ih =>
      intro w hw hts hlen
      have ht := hts t (by simp)
      have hclean : clean_expired_entries time_window t w = w :=
        clean_expired_eq_self _ _ _ (fun e he => by
          have := hw e he
          omega)
      have htot : total_messages w = w.length :=
        total_messages_eq_length w (fun e he => (hw e he).1)
      have hlt : total_messages (clean_expired_entries time_window t w) <
          max_messages := by
        rw [hclean, htot]
        simp only [List.length_cons] at hlen
        omega
      have ihr := ih (w ++ [(t, 1)])
        (by
          intro e he
          rcases List.mem_append.mp he with h | h
          · exact hw e h
          · simp only [List.mem_singleton] at h
            subst h
            exact ⟨rfl, ht.1, ht.2⟩)
        (fun t' ht' => hts t' (by simp [ht']))
        (by
          simp only [List.length_append, List.length_cons,
            List.length_nil] at hlen ⊢
          omega)
      simp only [admitAll]
      rw [admit_allow _ _ _ _ hlt, hclean]
      simp only [ihr, List.map_cons, List.length_cons, List.replicate_succ,
        List.append_assoc, List.singleton_append]

/-- Once the (unpruned-by-time) count has reached the limit, every further
request within the window is denied and nothing changes. -/
lemma admitAll_all_denied (time_window : ℤ) (max_messages : ℕ) :
    ∀ (ts : List ℤ) (w : Window),
      (∀ t ∈ ts, ∀ e ∈ w, t - e.1 < time_window) →
      max_messages ≤ total_messages w →
      admitAll time_window max_messages ts w =
        (w, List.replicate ts.length false) := by
  intro ts
  induction ts with
  | nil => intro w _ _; simp [admitAll]
  | cons t rest ih =>
      intro w hts htot
      have hclean : clean_expired_entries time_window t w = w :=
        clean_expired_eq_self _ _ _ (hts t (by simp))
      simp only [admitAll]
      rw [admit_deny _ _ _ _ (by rw [hclean]; exact htot), hclean,
        ih w (fun t' ht' => hts t' (by simp [ht'])) htot]
      simp [List.replicate_succ]

/-- `admitAll` splits over list append. -/
lemma admitAll_append (time_window : ℤ) (max_messages : ℕ) :
    ∀ (a b : List ℤ) (w : Window),
      admitAll time_window max_messages (a ++ b) w =
        ((admitAll time_window max_messages b
            (admitAll time_window max_messages a w).1).1,
         (admitAll time_window max_messages a w).2 ++
           (admitAll time_window max_messages b
             (admitAll time_window max_messages a w).1).2) := by
  intro a
  induction a with
  | nil => intro b w; simp [admitAll]
  | cons t rest ih =>
      intro b w
      simp only [List.cons_append, admitAll, List.append_eq]
      rw [ih]

/-! ### Concrete fixtures used to instantiate theorems -/

/-- An unauthenticated principal. -/
def anonUser : User := ⟨false, false, false, none, none⟩

/-- A matching chat POST from client `10.0.0.1`. -/
def chatPostReq : Request := ⟨"POST", "/api/chats/", "10.0.0.1", anonUser⟩

/-- A non-matching GET from the same client. -/
def plainGetReq : Request := ⟨"GET", "/api/chats/", "10.0.0.1", anonUser⟩

/-- A downstream handler that always succeeds. -/
def okHandler : Request → Response := fun _ => Response.ok "ok"

/-- The state in which no client has sent anything. -/
def emptyMap : WindowMap := fun _ => []

/-! ### Claims -/

/-- **C1**: for every client and every time `now`, the admission check of a
matching request first removes from that client's window exactly the entries
whose timestamp `t` satisfies `now - t ≥ time_window`; it then returns the
rate-limit 403 when the remaining summed count is `≥ max_messages`, and
otherwise appends `(now, 1)` to the window and lets the request through. -/
theorem limiter_admission_check (time_window : ℤ) (max_messages : ℕ) (now : ℤ)
    (get_response : Request → Response) (st : WindowMap) (req : Request)
    (hmatch : is_chat_post_request req.method req.path = true) :
    (max_messages ≤ total_messages ((st req.clientId).filter
        (fun e => !decide (time_window ≤ now - e.1))) →
      offensiveCall time_window max_messages now get_response st req =
        (setWindow st req.clientId ((st req.clientId).filter
           (fun e => !decide (time_window ≤ now - e.1))),
         Response.forbidden rate_limit_reason)) ∧
    (total_messages ((st req.clientId).filter
        (fun e => !decide (time_window ≤ now - e.1))) < max_messages →
      offensiveCall time_window max_messages now get_response st req =
        (setWindow st req.clientId ((st req.clientId).filter
           (fun e => !decide (time_window ≤ now - e.1)) ++ [(now, 1)]),
         get_response req)) := by
  rw [offensiveCall_matching_eq_admitOne _ _ _ _ _ _ hmatch,
    ← clean_expired_eq_filter_not_expired]
  constructor
  · intro hge
    simp [admitOne, is_rate_limited, hge]
  · intro hlt
    simp [admitOne, is_rate_limited, not_le.mpr hlt]

/-- Witness for C1: from an empty window, a matching POST at time 0 is below
the limit, so `(0, 1)` is appended and the handler's response is returned. -/
theorem limiter_admission_check_witness :
    offensiveCall 60 5 0 okHandler emptyMap chatPostReq =
      (setWindow emptyMap "10.0.0.1" [(0, 1)], okHandler chatPostReq) :=
  (limiter_admission_check 60 5 0 okHandler emptyMap chatPostReq
    (by decide)).2 (by decide)

/-- **C2**: the time-of-day gate denies exactly when
`hour < allowed_start ∧ hour > allowed_end`; with the configured
`allowed_start = 21` and `allowed_end = 18` this denies only hours 19 and 20,
and every other hour of 0..23 — the boundary hours 18 and 21 included — is
passed through to the handler. -/
theorem time_gate_characterization :
    (∀ hour : ℕ, time_gate_denies hour = true ↔
        (hour < allowed_start ∧ hour > allowed_end)) ∧
    allowed_start = 21 ∧ allowed_end = 18 ∧
    time_gate_denies 19 = true ∧ time_gate_denies 20 = true ∧
    time_gate_denies 18 = false ∧ time_gate_denies 21 = false ∧
    (∀ hour : ℕ, hour < 24 → hour ≠ 19 → hour ≠ 20 →
        time_gate_denies hour = false) ∧
    (∀ (hour : ℕ) (get_response : Request → Response) (req : Request),
        time_gate_denies hour = true →
          restrictAccessCall hour get_response req =
            Response.forbidden time_restriction_reason) ∧
    (∀ (hour : ℕ) (get_response : Request → Response) (req : Request),
        time_gate_denies hour = false →
          restrictAccessCall hour get_response req = get_response req) := by
  refine ⟨?_, rfl, rfl, by decide, by decide, by decide, by decide, ?_, ?_, ?_⟩
  · intro hour
    simp [time_gate_denies]
  · intro hour h24 h19 h20
    simp only [time_gate_denies, allowed_start, allowed_end,
      Bool.and_eq_false_iff, decide_eq_false_iff_not, not_lt]
    omega
  · intro hour get_response req h
    simp [restrictAccessCall, h]
  · intro hour get_response req h
    simp [restrictAccessCall, h]

/-- **C4**: the role gate passes through unconditionally on paths that start
with no protected path; on protected paths it lets the request through
exactly when the principal is authenticated and is a superuser, or staff, or
has a group or `role` membership in `{"admin", "moderator"}`, and answers the
role 403 otherwise.  A missing `groups`/`role` attribute simply fails to
match (the `none` cases), it never raises. -/
theorem role_gate_characterization :
    (∀ (get_response : Request → Response) (req : Request),
        protected_paths.any (fun p => req.path.startsWith p) = false →
          rolepermissionCall get_response req = get_response req) ∧
    (∀ u : User, has_admin_permissions u = true ↔
        (u.is_authenticated = true ∧
          (u.is_superuser = true ∨ u.is_staff = true ∨
            (∃ gs, u.groups = some gs ∧ ("admin" ∈ gs ∨ "moderator" ∈ gs)) ∨
            (∃ r, u.role = some r ∧ (r = "admin" ∨ r = "moderator"))))) ∧
    (∀ (get_response : Request → Response) (req : Request),
        protected_paths.any (fun p => req.path.startsWith p) = true →
          has_admin_permissions req.user = false →
            rolepermissionCall get_response req =
              Response.forbidden role_denied_reason) ∧
    (∀ (get_response : Request → Response) (req : Request),
        protected_paths.any (fun p => req.path.startsWith p) = true →
          has_admin_permissions req.user = true →
            rolepermissionCall get_response req = get_response req) := by
  refine ⟨?_, ?_, ?_, ?_⟩
  · intro get_response req h
    simp [rolepermissionCall, h]
  · rintro ⟨auth, su, staff, groups, role⟩
    cases auth <;> cases su <;> cases staff <;>
      cases groups <;> cases role <;>
        simp [has_admin_permissions] <;> tauto
  · intro get_response req hp hu
    simp [rolepermissionCall, hp, hu]
  · intro get_response req hp hu
    simp [rolepermissionCall, hp, hu]

/-- **C5**: whenever one of the three gates denies, the downstream handler is
never invoked — the middleware's result is the same for any two handlers —
and the caller receives that gate's fixed `Response.forbidden` carrying its
human-readable reason string.  (Denials are ordinary return values of these
total functions; no exception is modelled or needed.) -/
theorem deny_short_circuits :
    (∀ (hour : ℕ) (g₁ g₂ : Request → Response) (req : Request),
        time_gate_denies hour = true →
          restrictAccessCall hour g₁ req =
              Response.forbidden time_restriction_reason ∧
            restrictAccessCall hour g₁ req = restrictAccessCall hour g₂ req) ∧
    (∀ (time_window : ℤ) (max_messages : ℕ) (now : ℤ)
        (g₁ g₂ : Request → Response) (st : WindowMap) (req : Request),
        is_chat_post_request req.method req.path = true →
          (is_rate_limited time_window max_messages now (st req.clientId)).2
              = true →
            (offensiveCall time_window max_messages now g₁ st req).2 =
                Response.forbidden rate_limit_reason ∧
              offensiveCall time_window max_messages now g₁ st req =
                offensiveCall time_window max_messages now g₂ st req) ∧
    (∀ (g₁ g₂ : Request → Response) (req : Request),
        protected_paths.any (fun p => req.path.startsWith p) = true →
          has_admin_permissions req.user = false →
            rolepermissionCall g₁ req =
                Response.forbidden role_denied_reason ∧
              rolepermissionCall g₁ req = rolepermissionCall g₂ req) := by
  refine ⟨?_, ?_, ?_⟩
  · intro hour g₁ g₂ req h
    simp [restrictAccessCall, h]
  · intro time_window max_messages now g₁ g₂ st req hmatch hlim
    simp [offensiveCall, hmatch, hlim]
  · intro g₁ g₂ req hp hu
    simp [rolepermissionCall, hp, hu]

/-- **C6**: a request that is not a matching chat POST leaves the whole
per-client window map untouched (and the response is just the handler's). -/
theorem nonmatching_request_leaves_windows_unchanged
    (time_window : ℤ) (max_messages : ℕ) (now : ℤ)
    (get_response : Request → Response) (st : WindowMap) (req : Request)
    (hmiss : is_chat_post_request req.method req.path = false) :
    offensiveCall time_window max_messages now get_response st req =
      (st, get_response req) := by
  simp [offensiveCall, hmiss]

/-- Witness for C6: a GET request bypasses the limiter entirely. -/
theorem nonmatching_request_leaves_windows_unchanged_witness :
    offensiveCall 60 5 0 okHandler emptyMap plainGetReq =
      (emptyMap, okHandler plainGetReq) :=
  nonmatching_request_leaves_windows_unchanged 60 5 0 okHandler emptyMap
    plainGetReq (by decide)

/-- **C7**: provided the stored timestamps are not in the future (a monotone
clock), every entry surviving the prune at time `now` lies within
`[now - time_window, now]`; and an admission check for one client never
touches any other client's window — pruning is lazy, per key, with no
background sweep. -/
theorem prune_bounds_and_lazy (time_window : ℤ) (max_messages : ℕ) (now : ℤ)
    (get_response : Request → Response) (st : WindowMap) (req : Request)
    (hpast : ∀ e ∈ st req.clientId, e.1 ≤ now) :
    (∀ e ∈ clean_expired_entries time_window now (st req.clientId),
        now - time_window ≤ e.1 ∧ e.1 ≤ now) ∧
    (∀ c : String, c ≠ req.clientId →
        (offensiveCall time_window max_messages now get_response st req).1 c =
          st c) := by
  constructor
  · intro e he
    unfold clean_expired_entries at he
    have hm := List.mem_filter.mp he
    have hlt : now - e.1 < time_window := of_decide_eq_true hm.2
    exact ⟨by omega, hpast e hm.1⟩
  · intro c hc
    by_cases hm : is_chat_post_request req.method req.path = true
    · rw [offensiveCall_matching_eq_admitOne _ _ _ _ _ _ hm]
      simp [setWindow, hc]
    · rw [Bool.not_eq_true] at hm
      simp [offensiveCall, hm]

/-- Witness for C7 at the empty state (no stored timestamp, so the clock
hypothesis holds vacuously). -/
theorem prune_bounds_and_lazy_witness :
    (∀ e ∈ clean_expired_entries 60 0 (emptyMap "10.0.0.1"),
        (0 : ℤ) - 60 ≤ e.1 ∧ e.1 ≤ 0) ∧
    (∀ c : String, c ≠ "10.0.0.1" →
        (offensiveCall 60 5 0 okHandler emptyMap chatPostReq).1 c =
          emptyMap c) :=
  prune_bounds_and_lazy 60 5 0 okHandler emptyMap chatPostReq
    (by intro e he; simp [emptyMap] at he)

/-- **C9**: the applicability predicate holds exactly for POSTs whose path
contains one of the four chat fragments as a substring — anywhere in the
path, not only as a prefix — so a POST to `/foo/chats/bar` is rate limited
while a GET to a chat path, or a POST elsewhere, is not. -/
theorem chat_post_predicate_characterization :
    (∀ method path : String,
        is_chat_post_request method path = true ↔
          (method = "POST" ∧
            ∃ frag ∈ chat_url_fragments, frag.data <:+: path.data)) ∧
    is_chat_post_request "POST" "/foo/chats/bar" = true ∧
    is_chat_post_request "POST" "/foochats" = false ∧
    is_chat_post_request "GET" "/chats/" = false := by
  refine ⟨?_, by decide, by decide, by decide⟩
  intro method path
  simp [is_chat_post_request, List.any_eq_true]

/-- **C10**: a denied matching request consumes no slot: the client's window
afterwards is exactly its prior window with the expired entries removed, no
other client's window changes, and the response is the rate-limit 403. -/
theorem denied_request_frame (time_window : ℤ) (max_messages : ℕ) (now : ℤ)
    (get_response : Request → Response) (st : WindowMap) (req : Request)
    (hmatch : is_chat_post_request req.method req.path = true)
    (hlim : max_messages ≤ total_messages
        (clean_expired_entries time_window now (st req.clientId))) :
    (offensiveCall time_window max_messages now get_response st req).1
        req.clientId =
      clean_expired_entries time_window now (st req.clientId) ∧
    (∀ c : String, c ≠ req.clientId →
        (offensiveCall time_window max_messages now get_response st req).1 c =
          st c) ∧
    (offensiveCall time_window max_messages now get_response st req).2 =
      Response.forbidden rate_limit_reason := by
  rw [offensiveCall_matching_eq_admitOne _ _ _ _ _ _ hmatch]
  refine ⟨?_, ?_, ?_⟩
  · simp [admitOne, is_rate_limited, hlim, setWindow]
  · intro c hc
    simp [setWindow, hc]
  · simp [admitOne, is_rate_limited, hlim]

/-- A state in which client `10.0.0.1` has five fresh entries. -/
def fullMap : WindowMap :=
  setWindow emptyMap "10.0.0.1" [(0, 1), (0, 1), (0, 1), (0, 1), (0, 1)]

/-- Witness for C10: with five fresh entries and `max_messages = 5`, the
sixth matching request is denied and the window is only pruned. -/
theorem denied_request_frame_witness :
    (offensiveCall 60 5 0 okHandler fullMap chatPostReq).1 "10.0.0.1" =
      clean_expired_entries 60 0 (fullMap "10.0.0.1") ∧
    (∀ c : String, c ≠ "10.0.0.1" →
        (offensiveCall 60 5 0 okHandler fullMap chatPostReq).1 c = fullMap c) ∧
    (offensiveCall 60 5 0 okHandler fullMap chatPostReq).2 =
      Response.forbidden rate_limit_reason :=
  denied_request_frame 60 5 0 okHandler fullMap chatPostReq (by decide)
    (by decide)

/-- **C3**: with `max_messages = N`, after a sequence of `N` matching
requests from one client (the first at `t₁`, all times between `t₁` and
`t_next`), the `(N+1)`-th matching request at `t_next` is denied when it
arrives within the window of the first (`t_next - t₁ < time_window`), and
admitted when the window has elapsed (`time_window ≤ t_next - t₁`). -/
theorem nth_plus_one_request_fate (time_window : ℤ) (max_messages : ℕ)
    (t₁ t_next : ℤ) (rest : List ℤ)
    (hlen : (t₁ :: rest).length = max_messages)
    (hbound : ∀ t ∈ t₁ :: rest, t₁ ≤ t ∧ t ≤ t_next) :
    (t_next - t₁ < time_window →
      (admitOne time_window max_messages t_next
        (admitAll time_window max_messages (t₁ :: rest) []).1).2 = false) ∧
    (time_window ≤ t_next - t₁ →
      (admitOne time_window max_messages t_next
        (admitAll time_window max_messages (t₁ :: rest) []).1).2 = true) := by
  constructor
  · intro hin
    have hrun := admitAll_all_admitted time_window max_messages t₁ t_next hin
      (t₁ :: rest) [] (by simp) hbound (by simp [hlen])
    simp only [List.nil_append] at hrun
    rw [hrun]
    have hclean : clean_expired_entries time_window t_next
        ((t₁ :: rest).map (fun t => (t, 1))) =
        (t₁ :: rest).map (fun t => (t, 1)) := by
      apply clean_expired_eq_self
      intro e he
      simp only [List.mem_map] at he
      obtain ⟨t, htmem, rfl⟩ := he
      have h1 := hbound t htmem
      dsimp only
      omega
    rw [admit_deny _ _ _ _
      (by rw [hclean, total_messages_map_pairs, hlen])]
  · intro hout
    have hsub := admitAll_window_sublist time_window max_messages
      (t₁ :: rest) []
    simp only [List.nil_append] at hsub
    have hfil := hsub.filter (fun e => decide (t_next - e.1 < time_window))
    have hdrop : ((t₁ :: rest).map (fun t => (t, 1))).filter
        (fun e => decide (t_next - e.1 < time_window)) =
        (rest.map (fun t => (t, 1))).filter
          (fun e => decide (t_next - e.1 < time_window)) := by
      have hnot : ¬ (t_next - t₁ < time_window) := not_lt.mpr hout
      simp [List.filter_cons, hnot]
    rw [hdrop] at hfil
    have h1 := total_messages_le_of_sublist hfil
    have h2 := total_messages_le_of_sublist
      (@List.filter_sublist (ℤ × ℕ)
        (fun e => decide (t_next - e.1 < time_window))
        (rest.map (fun t => (t, 1))))
    rw [total_messages_map_pairs] at h2
    have h3 : rest.length + 1 = max_messages := by simpa using hlen
    have hlt : total_messages (clean_expired_entries time_window t_next
        (admitAll time_window max_messages (t₁ :: rest) []).1) <
        max_messages := by
      unfold clean_expired_entries
      omega
    rw [admit_allow _ _ _ _ hlt]

/-- Witness for C3: with `max_messages = 2`, requests at times 0 and 10, a
third request at time 30 (within the 60-second window of the first) is
denied. -/
theorem nth_plus_one_request_fate_witness :
    (admitOne 60 2 30 (admitAll 60 2 [0, 10] []).1).2 = false :=
  (nth_plus_one_request_fate 60 2 0 30 [10] (by decide) (by decide)).1
    (by decide)

/-- One request's limiter execution decomposed into its two separate atomic
actions, as the unlocked source runs them: `check i` performs
`_is_rate_limited` at request `i`'s time (prune the shared window, count,
record the verdict), and `append i` performs the later
`ip_message_counts[ip].append((now, 1))` that `__call__` executes only when
request `i`'s recorded verdict was Allow. -/
inductive RaceAction where
  | check (i : ℕ)
  | append (i : ℕ)
deriving DecidableEq

/-- The shared window plus the verdicts already taken, one per checked
request. -/
structure RaceState where
  window : Window
  verdicts : List (ℕ × Bool)
deriving DecidableEq

/-- One atomic action of the unlocked limiter on the shared state. -/
def raceStep (time_window : ℤ) (max_messages : ℕ) (times : ℕ → ℤ)
    (s : RaceState) : RaceAction → RaceState
  | RaceAction.check i =>
      let checked :=
        is_rate_limited time_window max_messages (times i) s.window
      ⟨checked.1, s.verdicts ++ [(i, !checked.2)]⟩
  | RaceAction.append i =>
      if (List.lookup i s.verdicts).getD false then
        ⟨s.window ++ [(times i, 1)], s.verdicts⟩
      else
        s

/-- Run a schedule — an interleaving of the requests' actions — from the
empty state. -/
def raceRun (time_window : ℤ) (max_messages : ℕ) (times : ℕ → ℤ)
    (sched : List RaceAction) : RaceState :=
  sched.foldl (raceStep time_window max_messages times) ⟨[], []⟩

/-- How many of the checked requests were admitted. -/
def admitted_count (s : RaceState) : ℕ :=
  (s.verdicts.filter (fun d => d.2)).length

/-- Counterexample to C8: the source takes no lock, so the two concurrent
requests' read-prune-append sequences may interleave as
check₀, check₁, append₀, append₁; with `max_messages = 1` and `K = 2`
matching requests at the same instant, both checks observe the pre-append
count 0 and BOTH requests are admitted — 2 admissions where the claim
demands exactly 1 regardless of interleaving. -/
theorem race_over_admission :
    admitted_count (raceRun 60 1 (fun _ => 0)
      [RaceAction.check 0, RaceAction.check 1,
       RaceAction.append 0, RaceAction.append 1]) = 2 ∧
    admitted_count (raceRun 60 1 (fun _ => 0)
      [RaceAction.check 0, RaceAction.check 1,
       RaceAction.append 0, RaceAction.append 1]) ≠ 1 := by
  constructor
  · decide
  · decide

/-- **C8 (amended)**: when the K requests' read-prune-append sequences are
serialized (run atomically one after the other, as a per-key lock would
enforce — the sequential semantics `admitAll`), K matching requests from one
client within one window with `max_messages < K` yield exactly
`max_messages` admissions and `K - max_messages` denials. -/
theorem serialized_admissions_exact (time_window : ℤ) (max_messages : ℕ)
    (lo hi : ℤ) (ts : List ℤ)
    (hspan : hi - lo < time_window)
    (hbound : ∀ t ∈ ts, lo ≤ t ∧ t ≤ hi)
    (hK : max_messages < ts.length) :
    (admitAll time_window max_messages ts []).2.count true = max_messages ∧
    (admitAll time_window max_messages ts []).2.count false =
      ts.length - max_messages := by
  have hsplit : ts = ts.take max_messages ++ ts.drop max_messages :=
    (List.take_append_drop _ _).symm
  have hlen1 : (ts.take max_messages).length = max_messages := by
    simp only [List.length_take]
    omega
  have h1 := admitAll_all_admitted time_window max_messages lo hi hspan
    (ts.take max_messages) []
    (by simp)
    (fun t ht => hbound t (List.take_subset _ _ ht))
    (by simp only [List.length_nil, List.length_take]; omega)
  have h2 := admitAll_all_denied time_window max_messages
    (ts.drop max_messages) ((ts.take max_messages).map (fun t => (t, 1)))
    (by
      intro t' ht' e he
      simp only [List.mem_map] at he
      obtain ⟨t, htmem, rfl⟩ := he
      have hb1 := hbound t' (List.drop_subset _ _ ht')
      have hb2 := hbound t (List.take_subset _ _ htmem)
      dsimp only
      omega)
    (le_of_eq (by rw [total_messages_map_pairs, hlen1]))
  have hdec : (admitAll time_window max_messages ts []).2 =
      List.replicate max_messages true ++
        List.replicate (ts.length - max_messages) false := by
    conv_lhs => rw [hsplit, admitAll_append, h1]
    simp only [List.nil_append]
    rw [h2]
    simp [hlen1, List.length_drop]
  rw [hdec]
  constructor
  · simp [List.count_append, List.count_replicate]
  · simp [List.count_append, List.count_replicate]

/-- Witness for the amended C8: three serialized requests within one window
and `max_messages = 2` give exactly two admissions and one denial. -/
theorem serialized_admissions_exact_witness :
    (admitAll 60 2 [0, 5, 10] []).2.count true = 2 ∧
    (admitAll 60 2 [0, 5, 10] []).2.count false = 3 - 2 :=
  serialized_admissions_exact 60 2 0 10 [0, 5, 10] (by decide) (by decide)
    (by decide)

end Middleware
